import Mathlib

/-!
Shallow embedding of `c2corg_api/views/user.py`: the user registration,
login, token-renewal and logout HTTP handlers, together with the
discourse forum integration (SSO redirect on login, remote logout and
the process-wide external-id cache).

External collaborators (the ORM session, the `roles` security helpers,
the discourse client and SSO provider) are modelled as explicit
parameters: a list of stored users for the database, and functions
returning `Option`/`Except` values for the fallible helpers.  Python
exceptions are modelled with `Except PyErr`.
-/

namespace C2c

/-- Python exception values raised or caught by the handlers. -/
inductive PyErr
  | keyError (k : String)
  | raised (msg : String)
  deriving DecidableEq, Repr

/-- JSON values appearing in request bodies (`request.json`). -/
inductive PyVal
  | str (s : String)
  | int (n : Int)
  | bool (b : Bool)
  deriving DecidableEq, Repr

/-- A JSON object, as an association list of key/value pairs. -/
abbrev JsonObj := List (String × PyVal)

/-- Membership test `key in request.json`. -/
def jsonHas (j : JsonObj) (k : String) : Bool :=
  j.any (fun p => p.1 == k)

/-- Lookup of a key in a JSON object, `None` when absent. -/
def jsonGet (j : JsonObj) (k : String) : Option PyVal :=
  (j.find? (fun p => p.1 == k)).map (fun p => p.2)

/-- Python subscript access `request.json[k]`: raises `KeyError` when the
key is absent. -/
def pyGetItem (j : JsonObj) (k : String) : Except PyErr PyVal :=
  match jsonGet j k with
  | some v => Except.ok v
  | none => Except.error (PyErr.keyError k)

/-- Python `value.encode('UTF-8')`: succeeds on a string (the encoded
bytes are modelled by the string itself), raises on any other value
(no `encode` attribute). -/
def pyEncode : PyVal → Except PyErr PyVal
  | PyVal.str s => Except.ok (PyVal.str s)
  | _ => Except.error (PyErr.raised "encode")

/-- The `User` model: identity attributes and the moderator flag.
The password field holds the stored hash; it plays no computational
role in the embedded handlers. -/
structure User where
  id : Nat
  username : String
  email : String
  password : String
  moderator : Bool
  deriving DecidableEq, Repr

/-- A Python `datetime` value, reduced to its total number of
microseconds counted from the epoch `datetime(1970, 1, 1)`.  Only
differences of datetimes occur in the source, so the choice of origin
cancels out. -/
structure PyDateTime where
  micros : Int
  deriving DecidableEq, Repr

/-- The constant `datetime.datetime(1970, 1, 1)` of the source, at the
origin of the microsecond count. -/
def epoch1970 : PyDateTime := ⟨0⟩

/-- A Python `timedelta`, in its normalized representation:
`0 ≤ seconds < 86400` and `0 ≤ microseconds < 1000000`, with `days` of
either sign. -/
structure PyTimedelta where
  days : Int
  seconds : Int
  microseconds : Int
  deriving DecidableEq, Repr

/-- Subtraction of datetimes: CPython builds the difference as a
normalized timedelta using floor divmod.  The divisors are positive, so
Lean's Euclidean `/` and `%` on `Int` coincide with Python's floor
divmod. -/
def dtSub (a b : PyDateTime) : PyTimedelta :=
  ⟨(a.micros - b.micros) / 86400000000,
    (a.micros - b.micros) % 86400000000 / 1000000,
    (a.micros - b.micros) % 86400000000 % 1000000⟩

/-- The power `2 ^ e` with integer exponent, as a rational. -/
def ratPow2 (e : Int) : Rat := (2 : Rat) ^ e

/-- The floor of the base-2 logarithm of a positive rational, computed
from the bit lengths of its numerator and denominator. -/
def ratFloorLog2 (q : Rat) : Int :=
  let c : Int := (q.num.natAbs.log2 : Int) - (q.den.log2 : Int)
  if ratPow2 c ≤ q then c else c - 1

/-- Rounding to the nearest integer, halves to the even neighbour — the
rounding of IEEE binary64 arithmetic. -/
def roundHalfEven (x : Rat) : Int :=
  let f := ⌊x⌋
  if x - f < 1 / 2 then f
  else if 1 / 2 < x - f then f + 1
  else if f % 2 = 0 then f else f + 1

/-- The IEEE binary64 value nearest to a positive rational: the 53-bit
significand is `p / 2 ^ (e - 52)` rounded half to even, where `e` is
the floor of the base-2 logarithm of `p`.  Overflow and subnormals are
not modelled: Python's bounded datetime range keeps the durations of
this file many orders of magnitude away from both regimes. -/
def roundDoublePos (p : Rat) : Rat :=
  let scale := ratPow2 (ratFloorLog2 p - 52)
  (roundHalfEven (p / scale) : Rat) * scale

/-- The IEEE binary64 value nearest to a rational (round half to even),
extended to zero and negative arguments by symmetry. -/
def roundDouble (q : Rat) : Rat :=
  if q = 0 then 0
  else if q < 0 then -roundDoublePos (-q)
  else roundDoublePos q

/-- The value of `timedelta.total_seconds()`: CPython computes
`((days * 86400 + seconds) * 10 ** 6 + microseconds) / 10 ** 6` with an
exact integer numerator and one float true division, so the result is
the binary64 rounding of the exact quotient. -/
def total_seconds (t : PyTimedelta) : Rat :=
  roundDouble
    ((((t.days * 86400 + t.seconds) * 1000000 + t.microseconds : Int) : Rat) /
      1000000)

/-- Python `int()` applied to an exact rational: truncation toward
zero. -/
def pyInt (q : Rat) : Int := q.num.tdiv q.den

/-- A session token as issued by the authentication helpers: an opaque
value and an expiry timestamp. -/
structure Token where
  value : String
  expire : PyDateTime
  deriving DecidableEq, Repr

/-- The body built by `token_to_response`. -/
structure TokenResponse where
  token : String
  username : String
  expire : Int
  roles : List String
  deriving DecidableEq, Repr

/-- Embedding of `token_to_response(user, token, request)` (the
`request` argument is unused by the source function). -/
def token_to_response (user : User) (token : Token) : TokenResponse :=
  let expire_time := dtSub token.expire epoch1970
  let roles := if user.moderator then ["moderator"] else []
  { token := token.value
    username := user.username
    expire := pyInt (total_seconds expire_time)
    roles := roles }

/-- Truncation of a rational toward zero, the spec's reading of
"truncated to an integer": floor for nonnegative durations, ceiling for
negative ones. -/
def ratTrunc (q : Rat) : Int := if 0 ≤ q then ⌊q⌋ else ⌈q⌉

/-- The spec's description of the `expire` field: the duration from the
Unix epoch to the token's expiry timestamp, in seconds, truncated to an
integer. -/
def specExpireSeconds (expire : PyDateTime) : Int :=
  ratTrunc (((expire.micros - epoch1970.micros : Int) : Rat) / 1000000)

theorem total_seconds_dtSub (a b : PyDateTime) :
    total_seconds (dtSub a b) =
      roundDouble (((a.micros - b.micros : Int) : Rat) / 1000000) := by
  have h : (((dtSub a b).days * 86400 + (dtSub a b).seconds) * 1000000 +
      (dtSub a b).microseconds : Int) = a.micros - b.micros := by
    simp only [dtSub]
    omega
  unfold total_seconds
  rw [h]

theorem pyInt_eq_ratTrunc (q : Rat) : pyInt q = ratTrunc q := by
  unfold pyInt ratTrunc
  rcases le_or_lt 0 q with hq | hq
  · rw [if_pos hq,
      Int.tdiv_eq_ediv (Rat.num_nonneg.mpr hq) (Int.natCast_nonneg q.den),
      Rat.floor_def]
  · rw [if_neg (not_le.mpr hq)]
    have hnum : q.num < 0 := Rat.num_neg.mpr hq
    have h4 : ⌈q⌉ = -⌊-q⌋ := by rw [Int.floor_neg, neg_neg]
    have h3 : ⌊-q⌋ = (-q.num) / (q.den : Int) := by
      rw [Rat.floor_def, Rat.neg_num, Rat.neg_den]
    have h2 : ((-q.num) : Int) / (q.den : Int) = (-q.num).tdiv q.den :=
      (Int.tdiv_eq_ediv (by omega) (Int.natCast_nonneg q.den)).symm
    rw [h4, h3, h2, ← Int.neg_tdiv, neg_neg]

theorem ratPow2_pos (e : Int) : 0 < ratPow2 e :=
  zpow_pos (by norm_num) e

theorem pyInt_intCast (n : Int) : pyInt ((n : Rat)) = n := by
  simp [pyInt, Rat.num_intCast, Rat.den_intCast, Int.tdiv_one]

theorem pyInt_neg (q : Rat) : pyInt (-q) = -pyInt q := by
  simp [pyInt, Rat.neg_num, Rat.neg_den, Int.neg_tdiv]

theorem floor_intCast_div_million (μ : Int) :
    ⌊(μ : Rat) / 1000000⌋ = μ / 1000000 := by
  rw [Int.floor_eq_iff]
  constructor
  · rw [le_div_iff₀ (by norm_num : (0:Rat) < 1000000)]
    exact_mod_cast (by omega : μ / 1000000 * 1000000 ≤ μ)
  · rw [div_lt_iff₀ (by norm_num : (0:Rat) < 1000000)]
    exact_mod_cast (by omega : μ < (μ / 1000000 + 1) * 1000000)

theorem ratTrunc_intCast_div_million (μ : Int) :
    ratTrunc ((μ : Rat) / 1000000) = μ.tdiv 1000000 := by
  rcases le_or_lt 0 μ with h | h
  · have hq : (0:Rat) ≤ (μ : Rat) / 1000000 :=
      div_nonneg (by exact_mod_cast h) (by norm_num)
    simp only [ratTrunc]
    rw [if_pos hq, floor_intCast_div_million, Int.tdiv_eq_ediv h (by norm_num)]
  · have hq : (μ : Rat) / 1000000 < 0 :=
      div_neg_of_neg_of_pos (by exact_mod_cast h) (by norm_num)
    simp only [ratTrunc]
    rw [if_neg (not_le.mpr hq)]
    have hrw : (μ : Rat) / 1000000 = -(((-μ : Int) : Rat) / 1000000) := by
      push_cast
      ring
    rw [hrw, Int.ceil_neg, floor_intCast_div_million,
      show μ.tdiv 1000000 = -((-μ).tdiv 1000000) by rw [Int.neg_tdiv, neg_neg],
      Int.tdiv_eq_ediv (by omega) (by norm_num)]

theorem ratFloorLog2_spec (q : Rat) (hq : 0 < q) :
    ratPow2 (ratFloorLog2 q) ≤ q ∧ q < ratPow2 (ratFloorLog2 q + 1) := by
  have hnum : 0 < q.num := Rat.num_pos.mpr hq
  have hden : (0:Rat) < (q.den : Rat) := by exact_mod_cast q.den_pos
  have hNq : ((q.num.natAbs : Nat) : Rat) = (q.num : Rat) := by
    rw [← Int.cast_natCast, Int.natAbs_of_nonneg hnum.le]
  have hNnz : q.num.natAbs ≠ 0 := Int.natAbs_ne_zero.mpr (ne_of_gt hnum)
  have hDnz : q.den ≠ 0 := Nat.pos_iff_ne_zero.mp q.den_pos
  have hF1 : (2:Rat) ^ ((q.num.natAbs.log2 : Nat) : Int) ≤ (q.num : Rat) := by
    rw [← hNq, zpow_natCast]
    exact_mod_cast Nat.log2_self_le hNnz
  have hF2 : (q.num : Rat) < (2:Rat) ^ (((q.num.natAbs.log2 : Nat) : Int) + 1) := by
    rw [← hNq, show ((q.num.natAbs.log2 : Nat) : Int) + 1 =
      ((q.num.natAbs.log2 + 1 : Nat) : Int) by push_cast; ring, zpow_natCast]
    exact_mod_cast Nat.lt_log2_self
  have hF3 : (2:Rat) ^ ((q.den.log2 : Nat) : Int) ≤ (q.den : Rat) := by
    rw [zpow_natCast]
    exact_mod_cast Nat.log2_self_le hDnz
  have hF4 : (q.den : Rat) < (2:Rat) ^ (((q.den.log2 : Nat) : Int) + 1) := by
    rw [show ((q.den.log2 : Nat) : Int) + 1 =
      ((q.den.log2 + 1 : Nat) : Int) by push_cast; ring, zpow_natCast]
    exact_mod_cast Nat.lt_log2_self
  have hqe : (q.num : Rat) / (q.den : Rat) = q := Rat.num_div_den q
  have hupper : q < ratPow2 (((q.num.natAbs.log2 : Int) - (q.den.log2 : Int)) + 1) := by
    have hupper' : (q.num : Rat) / (q.den : Rat) <
        ratPow2 (((q.num.natAbs.log2 : Int) - (q.den.log2 : Int)) + 1) := by
      rw [ratPow2,
        show ((q.num.natAbs.log2 : Int) - (q.den.log2 : Int)) + 1 =
          ((q.num.natAbs.log2 : Int) + 1) - (q.den.log2 : Int) by ring,
        zpow_sub₀ (by norm_num : (2:Rat) ≠ 0),
        div_lt_div_iff₀ hden (zpow_pos (by norm_num) _)]
      calc (q.num : Rat) * (2:Rat) ^ ((q.den.log2 : Nat) : Int)
          < (2:Rat) ^ (((q.num.natAbs.log2 : Nat) : Int) + 1) *
              (2:Rat) ^ ((q.den.log2 : Nat) : Int) :=
            mul_lt_mul_of_pos_right hF2 (zpow_pos (by norm_num) _)
        _ ≤ (2:Rat) ^ (((q.num.natAbs.log2 : Nat) : Int) + 1) * (q.den : Rat) :=
            mul_le_mul_of_nonneg_left hF3 (by positivity)
    rwa [hqe] at hupper'
  have hlower : ratPow2 (((q.num.natAbs.log2 : Int) - (q.den.log2 : Int)) - 1) < q := by
    have hlower' : ratPow2 (((q.num.natAbs.log2 : Int) - (q.den.log2 : Int)) - 1) <
        (q.num : Rat) / (q.den : Rat) := by
      rw [ratPow2,
        show ((q.num.natAbs.log2 : Int) - (q.den.log2 : Int)) - 1 =
          (q.num.natAbs.log2 : Int) - ((q.den.log2 : Int) + 1) by ring,
        zpow_sub₀ (by norm_num : (2:Rat) ≠ 0),
        div_lt_div_iff₀ (zpow_pos (by norm_num) _) hden]
      calc (2:Rat) ^ ((q.num.natAbs.log2 : Nat) : Int) * (q.den : Rat)
          < (2:Rat) ^ ((q.num.natAbs.log2 : Nat) : Int) *
              (2:Rat) ^ (((q.den.log2 : Nat) : Int) + 1) :=
            mul_lt_mul_of_pos_left hF4 (zpow_pos (by norm_num) _)
        _ ≤ (q.num : Rat) * (2:Rat) ^ (((q.den.log2 : Nat) : Int) + 1) :=
            mul_le_mul_of_nonneg_right hF1 (by positivity)
    rwa [hqe] at hlower'
  by_cases htest :
      ratPow2 ((q.num.natAbs.log2 : Int) - (q.den.log2 : Int)) ≤ q
  · have hval : ratFloorLog2 q =
        (q.num.natAbs.log2 : Int) - (q.den.log2 : Int) := by
      simp only [ratFloorLog2]
      rw [if_pos htest]
    rw [hval]
    exact ⟨htest, hupper⟩
  · have hval : ratFloorLog2 q =
        (q.num.natAbs.log2 : Int) - (q.den.log2 : Int) - 1 := by
      simp only [ratFloorLog2]
      rw [if_neg htest]
    rw [hval]
    refine ⟨hlower.le, ?_⟩
    rw [sub_add_cancel]
    exact not_le.mp htest

theorem ratFloorLog2_le (q : Rat) (hq : 0 < q) (m : Int)
    (h : q < ratPow2 (m + 1)) : ratFloorLog2 q ≤ m := by
  have hs := (ratFloorLog2_spec q hq).1
  have hlt : ratPow2 (ratFloorLog2 q) < ratPow2 (m + 1) := lt_of_le_of_lt hs h
  simp only [ratPow2] at hlt
  have := (zpow_lt_zpow_iff_right₀ (by norm_num : (1:Rat) < 2)).mp hlt
  omega

theorem ratFloorLog2_eq (q : Rat) (hq : 0 < q) (m : Int)
    (h1 : ratPow2 m ≤ q) (h2 : q < ratPow2 (m + 1)) : ratFloorLog2 q = m := by
  have hle := ratFloorLog2_le q hq m h2
  have hs2 := (ratFloorLog2_spec q hq).2
  have hlt : ratPow2 m < ratPow2 (ratFloorLog2 q + 1) := lt_of_le_of_lt h1 hs2
  simp only [ratPow2] at hlt
  have := (zpow_lt_zpow_iff_right₀ (by norm_num : (1:Rat) < 2)).mp hlt
  omega

theorem roundHalfEven_abs_le (x : Rat) :
    |((roundHalfEven x : Int) : Rat) - x| ≤ 1 / 2 := by
  have h0 : ((⌊x⌋ : Int) : Rat) ≤ x := Int.floor_le x
  have h1 : x < ((⌊x⌋ : Int) : Rat) + 1 := Int.lt_floor_add_one x
  simp only [roundHalfEven]
  split
  · rename_i hc
    rw [abs_le]
    constructor <;> linarith
  · rename_i hc
    rw [not_lt] at hc
    split
    · rename_i hc2
      rw [abs_le]
      push_cast
      constructor <;> linarith
    · rename_i hc2
      rw [not_lt] at hc2
      split
      · rw [abs_le]
        constructor <;> linarith
      · rw [abs_le]
        push_cast
        constructor <;> linarith

theorem roundHalfEven_intCast (n : Int) : roundHalfEven ((n : Rat)) = n := by
  simp only [roundHalfEven, Int.floor_intCast]
  rw [if_pos (by norm_num : ((n : Int) : Rat) - ((n : Int) : Rat) < 1 / 2)]

theorem roundDoublePos_sub_abs_le (p : Rat) :
    |roundDoublePos p - p| ≤ ratPow2 (ratFloorLog2 p - 53) := by
  have hspos : 0 < ratPow2 (ratFloorLog2 p - 52) := ratPow2_pos _
  have hkey : roundDoublePos p - p =
      (((roundHalfEven (p / ratPow2 (ratFloorLog2 p - 52)) : Int) : Rat) -
        p / ratPow2 (ratFloorLog2 p - 52)) * ratPow2 (ratFloorLog2 p - 52) := by
    simp only [roundDoublePos]
    rw [sub_mul, div_mul_cancel₀ _ (ne_of_gt hspos)]
  rw [hkey, abs_mul, abs_of_pos hspos]
  have h1 := roundHalfEven_abs_le (p / ratPow2 (ratFloorLog2 p - 52))
  have h2 : ratPow2 (ratFloorLog2 p - 53) =
      (1 / 2) * ratPow2 (ratFloorLog2 p - 52) := by
    simp only [ratPow2]
    rw [show ratFloorLog2 p - 53 = (ratFloorLog2 p - 52) - 1 by ring,
      zpow_sub₀ (by norm_num : (2:Rat) ≠ 0), zpow_one]
    ring
  rw [h2]
  exact mul_le_mul_of_nonneg_right h1 hspos.le

theorem roundDoublePos_intCast (n : Int)
    (he : ratFloorLog2 ((n : Rat)) ≤ 52) : roundDoublePos ((n : Rat)) = n := by
  have hsne : ratPow2 (ratFloorLog2 ((n : Rat)) - 52) ≠ 0 :=
    ne_of_gt (ratPow2_pos _)
  have hcast : ((n : Rat)) / ratPow2 (ratFloorLog2 ((n : Rat)) - 52) =
      ((n * 2 ^ (52 - ratFloorLog2 ((n : Rat))).toNat : Int) : Rat) := by
    simp only [ratPow2]
    rw [show ratFloorLog2 ((n : Rat)) - 52 = -(52 - ratFloorLog2 ((n : Rat)))
        by ring,
      zpow_neg, div_eq_mul_inv, inv_inv,
      show (52 : Int) - ratFloorLog2 ((n : Rat)) =
          (((52 - ratFloorLog2 ((n : Rat))).toNat : Nat) : Int) from
        (Int.toNat_of_nonneg (by omega)).symm,
      zpow_natCast]
    push_cast [Int.toNat_natCast]
    ring
  simp only [roundDoublePos]
  rw [hcast, roundHalfEven_intCast, ← hcast, div_mul_cancel₀ _ hsne]

theorem roundDouble_neg (q : Rat) : roundDouble (-q) = -roundDouble q := by
  rcases lt_trichotomy q 0 with h | h | h
  · simp only [roundDouble]
    rw [if_neg (by simp [ne_of_lt h] : ¬(-q = 0)),
      if_neg (by rw [not_lt]; linarith),
      if_neg (ne_of_lt h), if_pos h, neg_neg]
  · rw [h]
    simp [roundDouble]
  · simp only [roundDouble]
    rw [if_neg (by simp [ne_of_gt h] : ¬(-q = 0)),
      if_pos (by linarith : -q < 0),
      if_neg (ne_of_gt h), if_neg (not_lt.mpr h.le), neg_neg]

theorem pyInt_roundDouble_nonneg (μ : Int) (h0 : 0 ≤ μ)
    (h : μ < 2 ^ 34 * 1000000) :
    pyInt (roundDouble ((μ : Rat) / 1000000)) = μ.tdiv 1000000 := by
  rcases h0.lt_or_eq with hpos | hzero
  case inr =>
    rw [← hzero, show ((0 : Int) : Rat) / 1000000 = 0 by norm_num,
      show roundDouble 0 = 0 from by simp [roundDouble],
      show (0 : Rat) = ((0 : Int) : Rat) by norm_num,
      pyInt_intCast, Int.zero_tdiv]
  case inl =>
    have hq : (0:Rat) < (μ : Rat) / 1000000 := by positivity
    have hμ' : μ < 17179869184 * 1000000 := by
      have h234 : (2 : Int) ^ 34 = 17179869184 := by norm_num
      omega
    have hqlt : (μ : Rat) / 1000000 < ratPow2 34 := by
      rw [div_lt_iff₀ (by norm_num : (0:Rat) < 1000000), ratPow2,
        show (34 : Int) = ((34 : Nat) : Int) from rfl, zpow_natCast]
      have : ((μ : Int) : Rat) < ((17179869184 * 1000000 : Int) : Rat) := by
        exact_mod_cast hμ'
      calc ((μ : Int) : Rat) < ((17179869184 * 1000000 : Int) : Rat) := this
        _ = (2:Rat) ^ (34 : Nat) * 1000000 := by norm_num
    have he_le : ratFloorLog2 ((μ : Rat) / 1000000) ≤ 33 :=
      ratFloorLog2_le _ hq 33 (by rwa [show (33 : Int) + 1 = 34 from rfl])
    have hdecomp : μ = 1000000 * (μ / 1000000) + μ % 1000000 :=
      (Int.ediv_add_emod μ 1000000).symm
    have hk0 : 0 ≤ μ % 1000000 := Int.emod_nonneg μ (by norm_num)
    have hk1 : μ % 1000000 < 1000000 := Int.emod_lt_of_pos μ (by norm_num)
    have hn0 : 0 ≤ μ / 1000000 := Int.ediv_nonneg h0 (by norm_num)
    have htdiv : μ.tdiv 1000000 = μ / 1000000 :=
      Int.tdiv_eq_ediv h0 (by norm_num)
    rcases eq_or_lt_of_le hk0 with hkz | hkpos
    · -- the duration is a whole number of seconds
      have hqn : (μ : Rat) / 1000000 = ((μ / 1000000 : Int) : Rat) := by
        rw [div_eq_iff (by norm_num : (1000000:Rat) ≠ 0)]
        exact_mod_cast (by omega : μ = μ / 1000000 * 1000000)
      have hne : ((μ / 1000000 : Int) : Rat) ≠ 0 := by
        rw [← hqn]
        exact ne_of_gt hq
      have hnlt : ¬ ((μ / 1000000 : Int) : Rat) < 0 := by
        rw [← hqn]
        exact not_lt.mpr hq.le
      have hrd : roundDouble ((μ / 1000000 : Int) : Rat) =
          roundDoublePos ((μ / 1000000 : Int) : Rat) := by
        simp only [roundDouble]
        rw [if_neg hne, if_neg hnlt]
      have hle52 : ratFloorLog2 ((μ / 1000000 : Int) : Rat) ≤ 52 := by
        rw [← hqn]
        exact le_trans he_le (by norm_num)
      rw [hqn, hrd, roundDoublePos_intCast _ hle52, pyInt_intCast, htdiv]
    · -- at least one leftover microsecond on each side of the value
      have hql : ((μ / 1000000 : Int) : Rat) + 1 / 1000000 ≤ (μ : Rat) / 1000000 := by
        rw [le_div_iff₀ (by norm_num : (0:Rat) < 1000000), add_mul]
        have hint : (μ / 1000000) * 1000000 + 1 ≤ μ := by omega
        calc ((μ / 1000000 : Int) : Rat) * 1000000 + 1 / 1000000 * 1000000
            = ((μ / 1000000 : Int) : Rat) * 1000000 + 1 := by norm_num
          _ ≤ (μ : Rat) := by exact_mod_cast hint
      have hqu : (μ : Rat) / 1000000 ≤ ((μ / 1000000 : Int) : Rat) + 1 - 1 / 1000000 := by
        rw [div_le_iff₀ (by norm_num : (0:Rat) < 1000000)]
        have hint : μ ≤ (μ / 1000000) * 1000000 + 999999 := by omega
        have hc : (μ : Rat) ≤ ((μ / 1000000 : Int) : Rat) * 1000000 + 999999 := by
          exact_mod_cast hint
        linarith
      have hrpos_eq : roundDouble ((μ : Rat) / 1000000) =
          roundDoublePos ((μ : Rat) / 1000000) := by
        simp only [roundDouble]
        rw [if_neg (ne_of_gt hq), if_neg (not_lt.mpr hq.le)]
      have herr : |roundDoublePos ((μ : Rat) / 1000000) - (μ : Rat) / 1000000| ≤
          ratPow2 (ratFloorLog2 ((μ : Rat) / 1000000) - 53) :=
        roundDoublePos_sub_abs_le _
      have herr2 : ratPow2 (ratFloorLog2 ((μ : Rat) / 1000000) - 53) ≤
          ratPow2 (-20) := by
        simp only [ratPow2]
        exact zpow_le_zpow_right₀ (by norm_num) (by omega)
      have h20 : ratPow2 (-20 : Int) < 1 / 1000000 := by
        rw [ratPow2, show (-20 : Int) = -((20 : Nat) : Int) from rfl,
          zpow_neg, zpow_natCast]
        norm_num
      have hδ : |roundDouble ((μ : Rat) / 1000000) - (μ : Rat) / 1000000| <
          1 / 1000000 := by
        rw [hrpos_eq]
        exact lt_of_le_of_lt (le_trans herr herr2) h20
      rw [abs_lt] at hδ
      have hbl : ((μ / 1000000 : Int) : Rat) < roundDouble ((μ : Rat) / 1000000) := by
        linarith
      have hbu : roundDouble ((μ : Rat) / 1000000) < ((μ / 1000000 : Int) : Rat) + 1 := by
        linarith
      have hfloor : ⌊roundDouble ((μ : Rat) / 1000000)⌋ = μ / 1000000 := by
        rw [Int.floor_eq_iff]
        exact ⟨hbl.le, hbu⟩
      have hr0 : (0:Rat) ≤ roundDouble ((μ : Rat) / 1000000) :=
        le_trans (by exact_mod_cast hn0) hbl.le
      rw [pyInt_eq_ratTrunc]
      simp only [ratTrunc]
      rw [if_pos hr0, hfloor, htdiv]

theorem pyInt_roundDouble_div (μ : Int) (h : |μ| < 2 ^ 34 * 1000000) :
    pyInt (roundDouble ((μ : Rat) / 1000000)) = μ.tdiv 1000000 := by
  rcases le_or_lt 0 μ with h0 | h0
  · exact pyInt_roundDouble_nonneg μ h0 (by rwa [abs_of_nonneg h0] at h)
  · have hneg := pyInt_roundDouble_nonneg (-μ) (by omega)
      (by rw [abs_of_neg h0] at h; omega)
    have hcast : ((-μ : Int) : Rat) / 1000000 = -((μ : Rat) / 1000000) := by
      push_cast
      ring
    rw [hcast, roundDouble_neg, pyInt_neg, Int.neg_tdiv] at hneg
    exact neg_inj.mp hneg

/-- One entry of `request.errors`, as added by
`request.errors.add(location, name, description)`. -/
abbrev ErrEntry := String × String × String

/-- The validation-time request state: the raw JSON body, the errors
accumulated by the validators, and the `request.validated` mapping. -/
structure ReqState where
  json : JsonObj
  errors : List ErrEntry
  validated : List (String × PyVal)
  deriving DecidableEq, Repr

/-- Embedding of `request.errors.add(location, name, description)`. -/
def errorsAdd (s : ReqState) (loc field msg : String) : ReqState :=
  { s with errors := s.errors ++ [(loc, field, msg)] }

/-- Embedding of `validate_json_password(request)`: adds a `Required`
error when the `password` key is absent, then tries to read and encode
the password, adding an `Invalid` error when that raises (in
particular, the subscript access raises `KeyError` when the key is
absent). -/
def validate_json_password (s : ReqState) : ReqState :=
  let s1 := if jsonHas s.json "password" then s
            else errorsAdd s "body" "password" "Required"
  match pyGetItem s1.json "password" >>= pyEncode with
  | Except.ok b => { s1 with validated := s1.validated ++ [("password", b)] }
  | Except.error _ => errorsAdd s1 "body" "password" "Invalid"

/-- Python `getattr(User, attrname)` compared against a stored user, for
the two attribute names the source instantiates via `functools.partial`
("email" and "username"); other names never occur. -/
def userAttr (u : User) : String → PyVal
  | "username" => PyVal.str u.username
  | "email" => PyVal.str u.email
  | _ => PyVal.str ""

/-- Embedding of `validate_unique_attribute(attrname, request)`: when
the attribute is in the body, counts the stored users carrying the same
value; zero matches validate the value, otherwise a field error
`already used <attrname>` is added.  The database session is modelled
by the list of stored users. -/
def validate_unique_attribute (attrname : String) (db : List User)
    (s : ReqState) : ReqState :=
  match jsonGet s.json attrname with
  | some value =>
      let count := (db.filter (fun u => userAttr u attrname == value)).length
      if count = 0 then
        { s with validated := s.validated ++ [(attrname, value)] }
      else
        errorsAdd s "body" attrname ("already used " ++ attrname)
  | none => s

/-- The validator chain of `UserRegistrationRest.post`, in the order of
the source's `validators` list: password, then email uniqueness, then
username uniqueness. -/
def registrationValidators (db : List User) (s : ReqState) : ReqState :=
  validate_unique_attribute "username" db
    (validate_unique_attribute "email" db (validate_json_password s))

/-- Outcome of the registration endpoint. -/
inductive RegOutcome
  | rejected (errors : List ErrEntry)
  | created (u : User)
  | serverError (msg : String)
  deriving DecidableEq, Repr

/-- Embedding of the registration endpoint: the `cornice`/`pyramid`
dispatch of `@json_view` (an external collaborator of this repository)
runs every validator in order, accumulating errors; when any error was
accumulated the request is rejected and the view body never runs, so
nothing is added to storage.  Otherwise the view body of
`UserRegistrationRest.post` builds the user (`objectify` plus the
validated password), adds and flushes it; a flush failure raises
`HTTPInternalServerError('Error persisting user')` and persists
nothing. -/
def registrationPost (db : List User) (objectify : List (String × PyVal) → User)
    (flushOk : Bool) (s0 : ReqState) : RegOutcome × List User :=
  let s := registrationValidators db s0
  if s.errors.isEmpty then
    let u := objectify s.validated
    if flushOk then (RegOutcome.created u, db ++ [u])
    else (RegOutcome.serverError "Error persisting user", db)
  else
    (RegOutcome.rejected s.errors, db)

/-- The success body of the login endpoint: the `token_to_response`
dictionary, possibly extended with the `redirect` or
`redirect_internal` key. -/
structure LoginResponse where
  base : TokenResponse
  redirect : Option PyVal
  redirect_internal : Option String
  deriving DecidableEq, Repr

/-- Outcome of the login view body: either the success dictionary, or
`request.errors.status = 403` plus an error entry with a `None`
return. -/
inductive LoginOutcome
  | success (r : LoginResponse)
  | failure (status : Nat) (errors : List ErrEntry)
  deriving DecidableEq, Repr

/-- The external helpers used by the login view: `try_login` from the
security module, and the two discourse SSO redirect helpers.  The
redirect helpers can raise, hence `Except`. -/
structure LoginEnv where
  try_login : User → PyVal → Option Token
  discourse_redirect : User → PyVal → PyVal → Except PyErr PyVal
  discourse_redirect_without_nonce : User → Except PyErr String

/-- Embedding of
`DBSession.query(User).filter(User.username == username).first()`. -/
def firstUserByUsername (db : List User) (username : String) : Option User :=
  db.find? (fun u => u.username == username)

/-- Embedding of `UserLoginRest.post`.  The validated username and
password come from the schema and `validate_json_password` (the view
runs only when validation left no errors, so the initial error list is
empty).  An uncaught Python exception is an `Except.error` result; the
only guarded call is `discourse_redirect_without_nonce`, whose failure
is logged and swallowed. -/
def loginPost (db : List User) (env : LoginEnv) (json : JsonObj)
    (username : String) (password : PyVal) : Except PyErr LoginOutcome :=
  let user? := firstUserByUsername db username
  let token? := match user? with
    | some u => env.try_login u password
    | none => none
  match user?, token? with
  | some user, some token =>
      let response : LoginResponse :=
        { base := token_to_response user token
          redirect := none, redirect_internal := none }
      if jsonHas json "discourse" then
        if jsonHas json "sso" && jsonHas json "sig" then
          match pyGetItem json "sso" with
          | Except.error e => Except.error e
          | Except.ok sso =>
              match pyGetItem json "sig" with
              | Except.error e => Except.error e
              | Except.ok sig =>
                  match env.discourse_redirect user sso sig with
                  | Except.error e => Except.error e
                  | Except.ok redirect =>
                      Except.ok (LoginOutcome.success
                        { response with redirect := some redirect })
        else
          match env.discourse_redirect_without_nonce user with
          | Except.ok r =>
              Except.ok (LoginOutcome.success
                { response with redirect_internal := some r })
          | Except.error _ =>
              Except.ok (LoginOutcome.success response)
      else
        Except.ok (LoginOutcome.success response)
  | _, _ =>
      Except.ok (LoginOutcome.failure 403 [("body", "user", "Login failed")])

/-- Outcome of the renew endpoint. -/
inductive RenewOutcome
  | success (r : TokenResponse)
  | serverError (msg : String)
  deriving DecidableEq, Repr

/-- Embedding of `UserRenewRest.post`: look up the authenticated user
by id, ask `renew_token` for a fresh token; without a token the view
raises `HTTPInternalServerError('Error renewing token')`, with one it
returns `token_to_response`.  Calling `token_to_response` with a `None`
user would raise an `AttributeError`, modelled by `Except.error`. -/
def renewPost (lookupUser : Nat → Option User)
    (renew_token : Option User → Option Token) (userid : Nat) :
    Except PyErr RenewOutcome :=
  let user := lookupUser userid
  match renew_token user with
  | none => Except.ok (RenewOutcome.serverError "Error renewing token")
  | some token =>
      match user with
      | some u => Except.ok (RenewOutcome.success (token_to_response u token))
      | none => Except.error (PyErr.raised "AttributeError")

/-- The discourse client built by `get_discourse_client`.  The field
`by_external_id` models `client.by_external_id(userid)['id']`: its
first argument is the number of remote lookups already performed in the
process, so that a simulated provider can behave differently from one
call to the next (e.g. fail on the second lookup); `log_out` models
`client.log_out(discourse_userid)`.  Either call can raise. -/
structure DClient where
  by_external_id : Nat → Nat → Except PyErr Int
  log_out : Int → Except PyErr Unit

/-- The process-wide mutable state of the discourse integration: the
module-level dictionary `discourse_userid_cache`, and the count of
remote `by_external_id` lookups performed so far (the latter is not a
Python variable; it indexes the simulated provider and witnesses how
often the remote lookup ran). -/
structure DiscourseState where
  cache : List (Nat × Int)
  calls : Nat
  deriving DecidableEq, Repr

/-- Dictionary lookup `discourse_userid_cache.get(userid)` (`None` when
the key is absent).  Updates prepend, so the first match is the current
binding. -/
def cacheGet (c : List (Nat × Int)) (k : Nat) : Option Int :=
  (c.find? (fun p => p.1 == k)).map (fun p => p.2)

/-- Observable side effects of a logout request, in order. -/
inductive Op
  | removeToken (tok : String)
  | remoteLookup (uid : Nat)
  | remoteLogout (d : Int)
  deriving DecidableEq, Repr

/-- Embedding of `get_discourse_userid_by_userid(client, userid)`.  The
cached value is reused only when it is truthy (`if not
discourse_userid:` treats both `None` and `0` as a miss); otherwise the
remote lookup runs, and on success its result is stored in the cache.
The state and the performed operations are returned even when the
lookup raises, since the module-level mutations persist across a Python
exception. -/
def get_discourse_userid_by_userid (client : DClient) (userid : Nat)
    (s : DiscourseState) : DiscourseState × List Op × Except PyErr Int :=
  let remote : DiscourseState × List Op × Except PyErr Int :=
    match client.by_external_id s.calls userid with
    | Except.error e =>
        ({ s with calls := s.calls + 1 }, [Op.remoteLookup userid],
          Except.error e)
    | Except.ok d =>
        ({ cache := (userid, d) :: s.cache, calls := s.calls + 1 },
          [Op.remoteLookup userid], Except.ok d)
  match cacheGet s.cache userid with
  | none => remote
  | some d => if d = 0 then remote else (s, [], Except.ok d)

/-- The response body of the logout endpoint: the authenticated user id
and, when the remote logout succeeded, the resolved discourse id. -/
structure LogoutResult where
  user : Nat
  discourse_user : Option Int
  deriving DecidableEq, Repr

/-- The external dependencies of the logout view:
`get_discourse_client(request.registry.settings)`, which builds the
vendor client from the settings and can itself raise. -/
structure LogoutDeps where
  getClient : Except PyErr DClient

/-- Embedding of `UserLogoutRest.post`: the local token is revoked
first (`remove_token(extract_token(request))`), then, when the body
contains `discourse`, the whole discourse block — client construction,
external-id resolution and remote logout — runs inside a `try` whose
`except` swallows every failure, so the view always returns the result
dictionary.  The returned operation list records the side effects in
order. -/
def logoutPost (deps : LogoutDeps) (userid : Nat) (json : JsonObj)
    (token : String) (s : DiscourseState) :
    LogoutResult × DiscourseState × List Op :=
  let result : LogoutResult := { user := userid, discourse_user := none }
  let trace0 : List Op := [Op.removeToken token]
  if jsonHas json "discourse" then
    match deps.getClient with
    | Except.error _ => (result, s, trace0)
    | Except.ok client =>
        match get_discourse_userid_by_userid client userid s with
        | (s', ops, Except.error _) => (result, s', trace0 ++ ops)
        | (s', ops, Except.ok d) =>
            match client.log_out d with
            | Except.error _ =>
                (result, s', trace0 ++ ops ++ [Op.remoteLogout d])
            | Except.ok _ =>
                ({ result with discourse_user := some d }, s',
                  trace0 ++ ops ++ [Op.remoteLogout d])
  else
    (result, s, trace0)

/-- The ways the discourse sub-step of a logout can fail: client
construction raises, the external-id resolution raises, or the remote
logout raises. -/
def logoutDiscourseFails (deps : LogoutDeps) (userid : Nat)
    (s : DiscourseState) : Prop :=
  match deps.getClient with
  | Except.error _ => True
  | Except.ok client =>
      match get_discourse_userid_by_userid client userid s with
      | (_, _, Except.error _) => True
      | (_, _, Except.ok d) => ∃ e, client.log_out d = Except.error e

/-! Concrete sample values used by witnesses and counterexamples. -/

/-- A sample stored user. -/
def cUser : User := ⟨1, "alice", "alice@example.org", "hash", false⟩

/-- A sample issued token, expiring strictly after the epoch. -/
def cToken : Token := ⟨"tok123", ⟨1700000000000000⟩⟩

/-- A login environment whose credential check succeeds and whose
discourse helpers always raise. -/
def cFailEnv : LoginEnv :=
  ⟨fun _ _ => some cToken,
    fun _ _ _ => Except.error (PyErr.raised "discourse down"),
    fun _ => Except.error (PyErr.raised "discourse down")⟩

/-- A request body opting into discourse with a signed SSO payload. -/
def cJsonSso : JsonObj :=
  [("discourse", PyVal.bool true), ("sso", PyVal.str "p"), ("sig", PyVal.str "s")]

/-- A request body opting into discourse without an SSO payload. -/
def cJsonDiscourse : JsonObj := [("discourse", PyVal.bool true)]

/-! Theorems for the claims. -/

/-- The latest Python datetime, `datetime.max = 9999-12-31
23:59:59.999999`, as a token expiry: 253402300799999999 microseconds
after the epoch. -/
def cMaxExpire : Token := ⟨"tokmax", ⟨253402300799999999⟩⟩

/-- C4 counterexample: at `datetime.max` the exact duration is
253402300799.999999 s, whose binary64 rounding inside
`total_seconds()` is exactly 253402300800.0 (the spacing of doubles
there is 2^-15 s), so `int()` yields 253402300800 while truncating the
exact duration yields 253402300799 — the `expire` field differs from
the truncated whole-second duration. -/
theorem expire_field_rounds_at_datetime_max :
    (token_to_response cUser cMaxExpire).expire = 253402300800 ∧
    specExpireSeconds cMaxExpire.expire = 253402300799 ∧
    (token_to_response cUser cMaxExpire).expire ≠
      specExpireSeconds cMaxExpire.expire := by
  have hμ : cMaxExpire.expire.micros - epoch1970.micros = 253402300799999999 := by
    norm_num [cMaxExpire, epoch1970]
  have hqpos : (0:Rat) < ((253402300799999999 : Int) : Rat) / 1000000 := by
    positivity
  have h1 : (token_to_response cUser cMaxExpire).expire = 253402300800 := by
    show pyInt (total_seconds (dtSub cMaxExpire.expire epoch1970)) = 253402300800
    rw [total_seconds_dtSub, hμ]
    have he : ratFloorLog2 (((253402300799999999 : Int) : Rat) / 1000000) = 37 := by
      apply ratFloorLog2_eq _ hqpos
      · simp only [ratPow2]
        push_cast
        norm_num
      · simp only [ratPow2]
        push_cast
        norm_num
    have hrd : roundDouble (((253402300799999999 : Int) : Rat) / 1000000) =
        roundDoublePos (((253402300799999999 : Int) : Rat) / 1000000) := by
      simp only [roundDouble]
      rw [if_neg (ne_of_gt hqpos), if_neg (not_lt.mpr hqpos.le)]
    rw [hrd]
    simp only [roundDoublePos, he]
    have hscale : ratPow2 ((37:Int) - 52) = (32768 : Rat)⁻¹ := by
      simp only [ratPow2]
      norm_num
    rw [hscale, div_eq_mul_inv, inv_inv]
    have hfl : ⌊((253402300799999999 : Int) : Rat) / 1000000 * 32768⌋ =
        8303486592614399 := by
      rw [Int.floor_eq_iff]
      constructor
      · push_cast
        norm_num
      · push_cast
        norm_num
    have hx1 : ¬ (((253402300799999999 : Int) : Rat) / 1000000 * 32768 -
        ((8303486592614399 : Int) : Rat) < 1 / 2) := by
      push_cast
      norm_num
    have hx2 : (1:Rat) / 2 < ((253402300799999999 : Int) : Rat) / 1000000 * 32768 -
        ((8303486592614399 : Int) : Rat) := by
      push_cast
      norm_num
    have hrhe : roundHalfEven
        (((253402300799999999 : Int) : Rat) / 1000000 * 32768) =
        8303486592614400 := by
      simp only [roundHalfEven, hfl]
      rw [if_neg hx1, if_pos hx2]
      norm_num
    rw [hrhe]
    have hval : ((8303486592614400 : Int) : Rat) * (32768 : Rat)⁻¹ =
        ((253402300800 : Int) : Rat) := by
      push_cast
      norm_num
    rw [hval, pyInt_intCast]
  have h2 : specExpireSeconds cMaxExpire.expire = 253402300799 := by
    simp only [specExpireSeconds, hμ]
    rw [ratTrunc_intCast_div_million]
    decide
  exact ⟨h1, h2, by rw [h1, h2]; decide⟩

/-- C4 amended: for every user and every token whose expiry lies within
2^34 seconds of the Unix epoch (|micros| < 2^34 · 10^6, about ±544
years, so every realistic token), the `expire` field equals the
duration from the epoch to the expiry timestamp, in seconds, truncated
to an integer; beyond that range the float rounding inside
`total_seconds()` can carry the value across an integer boundary. -/
theorem expire_field_whole_seconds_within_float_range (user : User)
    (token : Token) (h : |token.expire.micros| < 2 ^ 34 * 1000000) :
    (token_to_response user token).expire = specExpireSeconds token.expire := by
  show pyInt (total_seconds (dtSub token.expire epoch1970)) =
    specExpireSeconds token.expire
  rw [total_seconds_dtSub,
    pyInt_roundDouble_div (token.expire.micros - epoch1970.micros)
      (by simpa [epoch1970] using h)]
  rw [show specExpireSeconds token.expire =
      ratTrunc (((token.expire.micros - epoch1970.micros : Int) : Rat) / 1000000)
      from rfl,
    ratTrunc_intCast_div_million]

/-- Witness for the amended C4 at the concrete sample token (expiry in
November 2023). -/
theorem expire_field_whole_seconds_within_float_range_witness :
    |cToken.expire.micros| < 2 ^ 34 * 1000000 ∧
    (token_to_response cUser cToken).expire = specExpireSeconds cToken.expire :=
  ⟨by decide,
    expire_field_whole_seconds_within_float_range cUser cToken (by decide)⟩

/-- C5: for every user and token, the `roles` field built by
`token_to_response` is `["moderator"]` when the moderator flag is set
and `[]` otherwise; in particular it contains `"moderator"` exactly
when the flag is set. -/
theorem roles_field_matches_moderator_flag (user : User) (token : Token) :
    (token_to_response user token).roles =
      (if user.moderator then ["moderator"] else []) ∧
    ("moderator" ∈ (token_to_response user token).roles ↔
      user.moderator = true) := by
  refine ⟨rfl, ?_⟩
  cases hm : user.moderator <;> simp [token_to_response, hm]

/-- C8: the renew view raises the generic
`HTTPInternalServerError('Error renewing token')` whenever
`renew_token` yields no token, and otherwise returns exactly the
response built by `token_to_response` for the authenticated user and
the fresh token. -/
theorem renew_generic_error_or_token_response (lookupUser : Nat → Option User)
    (renew_token : Option User → Option Token) (userid : Nat) :
    (renew_token (lookupUser userid) = none →
      renewPost lookupUser renew_token userid =
        Except.ok (RenewOutcome.serverError "Error renewing token")) ∧
    (∀ u t, lookupUser userid = some u → renew_token (some u) = some t →
      renewPost lookupUser renew_token userid =
        Except.ok (RenewOutcome.success (token_to_response u t))) := by
  constructor
  · intro h
    simp only [renewPost, h]
  · intro u t hu ht
    simp only [renewPost, hu, ht]

/-- Witness for C8 at a concrete user, token and renew function. -/
theorem renew_generic_error_or_token_response_witness :
    renewPost (fun _ => some cUser) (fun _ => some cToken) 1 =
      Except.ok (RenewOutcome.success (token_to_response cUser cToken)) :=
  (renew_generic_error_or_token_response (fun _ => some cUser)
    (fun _ => some cToken) 1).2 cUser cToken rfl rfl

/-- Helper: the exact error list produced by `validate_json_password`
on a body without a `password` key. -/
theorem vjp_missing_errors (s : ReqState)
    (h : jsonHas s.json "password" = false) :
    (validate_json_password s).errors =
      s.errors ++
        [("body", "password", "Required"), ("body", "password", "Invalid")] := by
  have hfind : List.find? (fun p => p.1 == "password") s.json = none := by
    rw [List.find?_eq_none]
    intro x hx
    simp only [jsonHas, List.any_eq_false] at h
    exact h x hx
  have hget : jsonGet s.json "password" = none := by
    unfold jsonGet
    rw [hfind]
    rfl
  unfold validate_json_password
  rw [h]
  simp only [Bool.false_eq_true, if_false]
  have hitem : pyGetItem s.json "password" >>= pyEncode =
      Except.error (PyErr.keyError "password") := by
    simp only [pyGetItem, hget]
    rfl
  simp only [errorsAdd, hitem]
  simp [List.append_assoc]

/-- C10: when the request body has no `password` key,
`validate_json_password` adds two errors on the `password` field, first
`Required` (membership check) and then `Invalid` (the subscript access
raises and is caught). -/
theorem missing_password_reported_twice (s : ReqState)
    (h : jsonHas s.json "password" = false) :
    (validate_json_password s).errors =
      s.errors ++
        [("body", "password", "Required"), ("body", "password", "Invalid")] :=
  vjp_missing_errors s h

/-- Witness for C10 on a concrete password-less request. -/
theorem missing_password_reported_twice_witness :
    (validate_json_password ⟨[("username", PyVal.str "alice")], [], []⟩).errors =
      [("body", "password", "Required"), ("body", "password", "Invalid")] :=
  missing_password_reported_twice ⟨[("username", PyVal.str "alice")], [], []⟩ rfl

/-- C3: an unknown username and a failed password check produce the
same login failure — status 403 and the single generic error
`('body', 'user', 'Login failed')` — so the response does not reveal
which of the two checks failed. -/
theorem login_failure_indistinguishable (db : List User) (env : LoginEnv)
    (json : JsonObj) (username : String) (password : PyVal)
    (h : firstUserByUsername db username = none ∨
      ∃ u, firstUserByUsername db username = some u ∧
        env.try_login u password = none) :
    loginPost db env json username password =
      Except.ok (LoginOutcome.failure 403 [("body", "user", "Login failed")]) := by
  rcases h with h | ⟨u, hu, ht⟩
  · simp only [loginPost, h]
  · simp only [loginPost, hu, ht]

/-- Witness for C3 with an unknown username over an empty store. -/
theorem login_failure_indistinguishable_witness :
    loginPost [] cFailEnv [] "alice" (PyVal.str "pw") =
      Except.ok (LoginOutcome.failure 403 [("body", "user", "Login failed")]) :=
  login_failure_indistinguishable [] cFailEnv [] "alice" (PyVal.str "pw")
    (Or.inl rfl)

/-- C1 counterexample: with valid credentials and a request opting into
discourse with `sso` and `sig` present, a failure raised by
`discourse_redirect` is not caught — the login view raises instead of
returning the success response. -/
theorem login_sso_redirect_error_propagates :
    loginPost [cUser] cFailEnv cJsonSso "alice" (PyVal.str "pw") =
      Except.error (PyErr.raised "discourse down") := by
  rfl

/-- C1 amended: in the without-nonce branch (body contains `discourse`
but not both `sso` and `sig`), a failure of
`discourse_redirect_without_nonce` is caught and dropped and the view
still returns the success response built by `token_to_response`; in the
signed-payload branch a `discourse_redirect` failure propagates. -/
theorem login_without_nonce_error_swallowed (db : List User) (env : LoginEnv)
    (json : JsonObj) (username : String) (password : PyVal) (user : User)
    (token : Token) (e : PyErr)
    (hu : firstUserByUsername db username = some user)
    (ht : env.try_login user password = some token)
    (hd : jsonHas json "discourse" = true)
    (hss : (jsonHas json "sso" && jsonHas json "sig") = false)
    (he : env.discourse_redirect_without_nonce user = Except.error e) :
    loginPost db env json username password =
      Except.ok (LoginOutcome.success
        { base := token_to_response user token
          redirect := none, redirect_internal := none }) := by
  simp only [loginPost, hu, ht, hd, hss, he, Bool.false_eq_true, if_true,
    if_false]

/-- Witness for the amended C1 on a concrete request whose discourse
redirect fails. -/
theorem login_without_nonce_error_swallowed_witness :
    loginPost [cUser] cFailEnv cJsonDiscourse "alice" (PyVal.str "pw") =
      Except.ok (LoginOutcome.success
        { base := token_to_response cUser cToken
          redirect := none, redirect_internal := none }) :=
  login_without_nonce_error_swallowed [cUser] cFailEnv cJsonDiscourse "alice"
    (PyVal.str "pw") cUser cToken (PyErr.raised "discourse down")
    rfl rfl rfl rfl rfl

/-- C7: for every authenticated logout request with `discourse` in the
body, when the discourse sub-step fails at any point, the view still
returns a result whose `user` is the authenticated id with
`discourse_user` omitted, and the local token revocation is the first
operation performed, before any discourse call. -/
theorem logout_discourse_failure_isolated (deps : LogoutDeps) (userid : Nat)
    (json : JsonObj) (token : String) (s : DiscourseState)
    (hd : jsonHas json "discourse" = true)
    (hfail : logoutDiscourseFails deps userid s) :
    (logoutPost deps userid json token s).1 =
      { user := userid, discourse_user := none } ∧
    (logoutPost deps userid json token s).2.2.head? =
      some (Op.removeToken token) := by
  unfold logoutDiscourseFails at hfail
  unfold logoutPost
  rw [hd, if_pos rfl]
  cases hc : deps.getClient with
  | error e =>
      simp only [hc]
      exact ⟨by trivial, by trivial⟩
  | ok client =>
      simp only [hc] at hfail ⊢
      rcases hg : get_discourse_userid_by_userid client userid s with ⟨s', ops, r⟩
      simp only [hg] at hfail ⊢
      cases r with
      | error e => exact ⟨by trivial, by trivial⟩
      | ok d =>
          obtain ⟨e, he⟩ := hfail
          simp only [he]
          exact ⟨by trivial, by trivial⟩

/-- A logout dependency whose client construction raises. -/
def cFailDeps : LogoutDeps := ⟨Except.error (PyErr.raised "no settings")⟩

/-- Witness for C7 on a concrete request whose client construction
fails. -/
theorem logout_discourse_failure_isolated_witness :
    (logoutPost cFailDeps 1 cJsonDiscourse "tok" ⟨[], 0⟩).1 =
      { user := 1, discourse_user := none } ∧
    (logoutPost cFailDeps 1 cJsonDiscourse "tok" ⟨[], 0⟩).2.2.head? =
      some (Op.removeToken "tok") :=
  logout_discourse_failure_isolated cFailDeps 1 cJsonDiscourse "tok" ⟨[], 0⟩
    rfl trivial

/-- The cache holds the current binding at the head of the list. -/
theorem cacheGet_cons_self (c : List (Nat × Int)) (k : Nat) (v : Int) :
    cacheGet ((k, v) :: c) k = some v := by
  simp [cacheGet]

/-- C2 counterexample: a provider whose first lookup succeeds with
external id `0` (and which fails afterwards).  The first resolution
succeeds and the id is cached, yet the next call performs the remote
lookup again — `if not discourse_userid:` treats the cached `0` as a
miss — so the external id is not resolved at most once. -/
def cZeroClient : DClient :=
  ⟨fun n _ => if n = 0 then Except.ok 0 else Except.error (PyErr.raised "down"),
    fun _ => Except.ok ()⟩

/-- C2 counterexample theorem: first lookup succeeds with id 0 and the
result is cached, but the second call hits the remote provider again
and fails. -/
theorem cached_zero_id_resolved_again :
    (get_discourse_userid_by_userid cZeroClient 1 ⟨[], 0⟩).2.2 = Except.ok 0 ∧
    cacheGet (get_discourse_userid_by_userid cZeroClient 1 ⟨[], 0⟩).1.cache 1 =
      some 0 ∧
    (get_discourse_userid_by_userid cZeroClient 1
        (get_discourse_userid_by_userid cZeroClient 1 ⟨[], 0⟩).1).2.1 =
      [Op.remoteLookup 1] ∧
    (get_discourse_userid_by_userid cZeroClient 1
        (get_discourse_userid_by_userid cZeroClient 1 ⟨[], 0⟩).1).2.2 =
      Except.error (PyErr.raised "down") :=
  ⟨rfl, rfl, rfl, rfl⟩

/-- C2 amended: provided the first successful resolution returns a
truthy (nonzero) external id, the id is cached and every later call —
with any client, in particular one whose lookup now fails — returns the
cached id without any remote lookup, and a later logout reuses it. -/
theorem discourse_userid_resolved_once (c₁ : DClient) (userid : Nat)
    (s s₁ : DiscourseState) (ops₁ : List Op) (d : Int)
    (h1 : get_discourse_userid_by_userid c₁ userid s = (s₁, ops₁, Except.ok d))
    (hd : d ≠ 0) :
    cacheGet s₁.cache userid = some d ∧
    (∀ c₂ : DClient,
      get_discourse_userid_by_userid c₂ userid s₁ = (s₁, [], Except.ok d)) ∧
    (∀ (deps₂ : LogoutDeps) (c₂ : DClient) (json : JsonObj) (tok : String),
      deps₂.getClient = Except.ok c₂ → jsonHas json "discourse" = true →
      (∀ op ∈ (logoutPost deps₂ userid json tok s₁).2.2,
        op ≠ Op.remoteLookup userid) ∧
      (c₂.log_out d = Except.ok () →
        (logoutPost deps₂ userid json tok s₁).1 =
          { user := userid, discourse_user := some d })) := by
  have hcached : cacheGet s₁.cache userid = some d := by
    cases hg : cacheGet s.cache userid with
    | none =>
        simp only [get_discourse_userid_by_userid, hg] at h1
        cases hr : c₁.by_external_id s.calls userid with
        | error e => simp only [hr] at h1; simp at h1
        | ok d' =>
            simp only [hr, Prod.mk.injEq, Except.ok.injEq] at h1
            obtain ⟨h1a, _, h1c⟩ := h1
            rw [← h1a, h1c]
            exact cacheGet_cons_self s.cache userid d
    | some d' =>
        simp only [get_discourse_userid_by_userid, hg] at h1
        by_cases hz : d' = 0
        · rw [if_pos hz] at h1
          cases hr : c₁.by_external_id s.calls userid with
          | error e => simp only [hr] at h1; simp at h1
          | ok d'' =>
              simp only [hr, Prod.mk.injEq, Except.ok.injEq] at h1
              obtain ⟨h1a, _, h1c⟩ := h1
              rw [← h1a, h1c]
              exact cacheGet_cons_self s.cache userid d
        · rw [if_neg hz] at h1
          simp only [Prod.mk.injEq, Except.ok.injEq] at h1
          obtain ⟨h1a, _, h1c⟩ := h1
          rw [← h1a, ← h1c]
          exact hg
  have hsecond : ∀ c₂ : DClient,
      get_discourse_userid_by_userid c₂ userid s₁ = (s₁, [], Except.ok d) := by
    intro c₂
    simp only [get_discourse_userid_by_userid, hcached]
    rw [if_neg hd]
  refine ⟨hcached, hsecond, ?_⟩
  intro deps₂ c₂ json tok hc hdj
  constructor
  · intro op hop
    unfold logoutPost at hop
    rw [hdj, if_pos rfl] at hop
    simp only [hc, hsecond c₂] at hop
    cases hlo : c₂.log_out d with
    | error e =>
        simp only [hlo, List.append_nil, List.cons_append, List.nil_append,
          List.mem_cons, List.mem_singleton, List.not_mem_nil] at hop
        rcases hop with h | h | h
        · simp [h]
        · simp [h]
        · exact h.elim
    | ok u =>
        simp only [hlo, List.append_nil, List.cons_append, List.nil_append,
          List.mem_cons, List.mem_singleton, List.not_mem_nil] at hop
        rcases hop with h | h | h
        · simp [h]
        · simp [h]
        · exact h.elim
  · intro hlo
    unfold logoutPost
    rw [hdj, if_pos rfl]
    simp only [hc, hsecond c₂, hlo]

/-- A provider that resolves external id 5 on the first lookup and
fails on every later one. -/
def cOnceClient : DClient :=
  ⟨fun n _ => if n = 0 then Except.ok 5 else Except.error (PyErr.raised "down"),
    fun _ => Except.ok ()⟩

/-- Witness for the amended C2: after a first successful resolution,
the second call with the now-failing provider still returns the cached
id 5 without a remote lookup. -/
theorem discourse_userid_resolved_once_witness :
    get_discourse_userid_by_userid cOnceClient 1
        (⟨[(1, 5)], 1⟩ : DiscourseState) =
      ((⟨[(1, 5)], 1⟩ : DiscourseState), [], Except.ok 5) :=
  ((discourse_userid_resolved_once cOnceClient 1 ⟨[], 0⟩ ⟨[(1, 5)], 1⟩
    [Op.remoteLookup 1] 5 rfl (by decide)).2.1) cOnceClient

/-- Validators leave the request body unchanged: password check. -/
theorem vjp_json (s : ReqState) : (validate_json_password s).json = s.json := by
  simp only [validate_json_password, errorsAdd]
  split <;> split <;> rfl

/-- Validators leave the request body unchanged: uniqueness check. -/
theorem vua_json (a : String) (db : List User) (s : ReqState) :
    (validate_unique_attribute a db s).json = s.json := by
  simp only [validate_unique_attribute, errorsAdd]
  split
  · split <;> rfl
  · rfl

/-- The password validator only appends to the error list. -/
theorem vjp_errors_mono (s : ReqState) (x : ErrEntry) (hx : x ∈ s.errors) :
    x ∈ (validate_json_password s).errors := by
  simp only [validate_json_password, errorsAdd]
  split <;> split <;> simp_all [List.mem_append]

/-- The uniqueness validator only appends to the error list. -/
theorem vua_errors_mono (a : String) (db : List User) (s : ReqState)
    (x : ErrEntry) (hx : x ∈ s.errors) :
    x ∈ (validate_unique_attribute a db s).errors := by
  simp only [validate_unique_attribute, errorsAdd]
  split
  · split
    · exact hx
    · simp [List.mem_append, hx]
  · exact hx

/-- When the attribute value in the body is already carried by a stored
user, the uniqueness validator adds its field error. -/
theorem vua_adds_error (a : String) (db : List User) (s : ReqState) (v : PyVal)
    (hv : jsonGet s.json a = some v) (hu : ∃ u ∈ db, userAttr u a = v) :
    ("body", a, "already used " ++ a) ∈
      (validate_unique_attribute a db s).errors := by
  simp only [validate_unique_attribute, errorsAdd, hv]
  have hne : ¬ (db.filter (fun u => userAttr u a == v)).length = 0 := by
    rw [List.length_eq_zero, List.filter_eq_nil_iff]
    push_neg
    obtain ⟨u, hu1, hu2⟩ := hu
    exact ⟨u, hu1, by simp [hu2]⟩
  rw [if_neg hne]
  simp

/-- The attribute `a` of the request body is already taken by a stored
user. -/
def attrTaken (db : List User) (s : ReqState) (a : String) : Prop :=
  ∃ v, jsonGet s.json a = some v ∧ ∃ u ∈ db, userAttr u a = v

/-- C6: a registration whose username or email is already stored is
rejected with the field error `already used <attr>` and storage is
unchanged, and validation is not short-circuited: every invalid field
among username, email and a missing password contributes its own
error. -/
theorem registration_rejects_duplicate_attributes (db : List User)
    (objectify : List (String × PyVal) → User) (flushOk : Bool) (s : ReqState)
    (h : attrTaken db s "username" ∨ attrTaken db s "email") :
    registrationPost db objectify flushOk s =
      (RegOutcome.rejected (registrationValidators db s).errors, db) ∧
    (attrTaken db s "username" →
      ("body", "username", "already used " ++ "username") ∈
        (registrationValidators db s).errors) ∧
    (attrTaken db s "email" →
      ("body", "email", "already used " ++ "email") ∈
        (registrationValidators db s).errors) ∧
    (jsonHas s.json "password" = false →
      ("body", "password", "Required") ∈ (registrationValidators db s).errors ∧
      ("body", "password", "Invalid") ∈ (registrationValidators db s).errors) := by
  have hjson1 : (validate_json_password s).json = s.json := vjp_json s
  have hjson2 :
      (validate_unique_attribute "email" db (validate_json_password s)).json =
        s.json := by
    rw [vua_json, hjson1]
  have husername : attrTaken db s "username" →
      ("body", "username", "already used " ++ "username") ∈
        (registrationValidators db s).errors := by
    rintro ⟨v, hv, hu⟩
    have hv2 : jsonGet
        (validate_unique_attribute "email" db (validate_json_password s)).json
        "username" = some v := by rw [hjson2]; exact hv
    exact vua_adds_error "username" db _ v hv2 hu
  have hemail : attrTaken db s "email" →
      ("body", "email", "already used " ++ "email") ∈
        (registrationValidators db s).errors := by
    rintro ⟨v, hv, hu⟩
    have hv1 : jsonGet (validate_json_password s).json "email" = some v := by
      rw [hjson1]; exact hv
    exact vua_errors_mono "username" db _ _
      (vua_adds_error "email" db _ v hv1 hu)
  have hpassword : jsonHas s.json "password" = false →
      ("body", "password", "Required") ∈ (registrationValidators db s).errors ∧
      ("body", "password", "Invalid") ∈ (registrationValidators db s).errors := by
    intro hp
    have he := vjp_missing_errors s hp
    constructor
    · refine vua_errors_mono "username" db _ _
        (vua_errors_mono "email" db _ _ ?_)
      rw [he]; simp
    · refine vua_errors_mono "username" db _ _
        (vua_errors_mono "email" db _ _ ?_)
      rw [he]; simp
  have hmem : ∃ x, x ∈ (registrationValidators db s).errors := by
    rcases h with hU | hE
    · exact ⟨_, husername hU⟩
    · exact ⟨_, hemail hE⟩
  have hempty : (registrationValidators db s).errors.isEmpty = false := by
    obtain ⟨x, hx⟩ := hmem
    rw [List.isEmpty_eq_false]
    exact List.ne_nil_of_mem hx
  refine ⟨?_, husername, hemail, hpassword⟩
  simp only [registrationPost, hempty, Bool.false_eq_true, if_false]

/-- A registration request whose username and email are both already
stored, and whose password is missing. -/
def cRegReq : ReqState :=
  ⟨[("username", PyVal.str "alice"), ("email", PyVal.str "alice@example.org")],
    [], []⟩

/-- Witness for C6: the fully-duplicated, password-less registration is
rejected with storage unchanged. -/
theorem registration_rejects_duplicate_attributes_witness :
    registrationPost [cUser] (fun _ => cUser) true cRegReq =
      (RegOutcome.rejected (registrationValidators [cUser] cRegReq).errors,
        [cUser]) :=
  (registration_rejects_duplicate_attributes [cUser] (fun _ => cUser) true
    cRegReq
    (Or.inl ⟨PyVal.str "alice", rfl, cUser, by simp, rfl⟩)).1

/-- C9: in every successful login response, the optional fields
`redirect` and `redirect_internal` are mutually exclusive: `redirect`
appears only when the body holds `discourse`, `sso` and `sig`;
`redirect_internal` only when `discourse` is present without the full
`sso`/`sig` pair and the remote call succeeded for the logged-in user;
and neither appears when `discourse` is absent from the body. -/
theorem login_redirect_fields_exclusive (db : List User) (env : LoginEnv)
    (json : JsonObj) (username : String) (password : PyVal) (r : LoginResponse)
    (h : loginPost db env json username password =
      Except.ok (LoginOutcome.success r)) :
    (r.redirect = none ∨ r.redirect_internal = none) ∧
    (r.redirect ≠ none →
      jsonHas json "discourse" = true ∧ jsonHas json "sso" = true ∧
        jsonHas json "sig" = true) ∧
    (r.redirect_internal ≠ none →
      jsonHas json "discourse" = true ∧
        (jsonHas json "sso" && jsonHas json "sig") = false ∧
        ∃ u url, firstUserByUsername db username = some u ∧
          env.discourse_redirect_without_nonce u = Except.ok url ∧
          r.redirect_internal = some url) ∧
    (jsonHas json "discourse" = false →
      r.redirect = none ∧ r.redirect_internal = none) := by
  cases hu : firstUserByUsername db username with
  | none => simp [loginPost, hu] at h
  | some user =>
  cases ht : env.try_login user password with
  | none => simp [loginPost, hu, ht] at h
  | some token =>
  cases hd : jsonHas json "discourse" with
  | false =>
      simp only [loginPost, hu, ht, hd, Bool.false_eq_true, if_false,
        Except.ok.injEq, LoginOutcome.success.injEq] at h
      subst h
      refine ⟨Or.inl rfl, ?_, ?_, fun _ => ⟨rfl, rfl⟩⟩ <;> simp
  | true =>
  cases hss : jsonHas json "sso" && jsonHas json "sig" with
  | true =>
      have hpair : jsonHas json "sso" = true ∧ jsonHas json "sig" = true := by
        rw [← Bool.and_eq_true]
        exact hss
      cases hsso : pyGetItem json "sso" with
      | error e => simp [loginPost, hu, ht, hd, hss, hsso] at h
      | ok sso =>
      cases hsig : pyGetItem json "sig" with
      | error e => simp [loginPost, hu, ht, hd, hss, hsso, hsig] at h
      | ok sig =>
      cases hred : env.discourse_redirect user sso sig with
      | error e => simp [loginPost, hu, ht, hd, hss, hsso, hsig, hred] at h
      | ok url =>
          simp only [loginPost, hu, ht, hd, hss, if_true, hsso, hsig, hred,
            Except.ok.injEq, LoginOutcome.success.injEq] at h
          subst h
          refine ⟨Or.inr rfl, fun _ => ⟨rfl, hpair⟩, ?_, ?_⟩ <;> simp
  | false =>
  cases hwn : env.discourse_redirect_without_nonce user with
  | ok url =>
      simp only [loginPost, hu, ht, hd, hss, Bool.false_eq_true, if_true,
        if_false, hwn, Except.ok.injEq, LoginOutcome.success.injEq] at h
      subst h
      refine ⟨Or.inl rfl, ?_, fun _ => ⟨rfl, rfl, user, url, rfl, hwn, rfl⟩,
        ?_⟩ <;> simp
  | error e =>
      simp only [loginPost, hu, ht, hd, hss, Bool.false_eq_true, if_true,
        if_false, hwn, Except.ok.injEq, LoginOutcome.success.injEq] at h
      subst h
      refine ⟨Or.inl rfl, ?_, ?_, fun _ => ⟨rfl, rfl⟩⟩ <;> simp

/-- A login environment whose credential check and discourse helpers
all succeed. -/
def cOkEnv : LoginEnv :=
  ⟨fun _ _ => some cToken,
    fun _ _ _ => Except.ok (PyVal.str "https://forum.example.org/sso"),
    fun _ => Except.ok "https://forum.example.org/internal"⟩

/-- Witness for C9 on a concrete discourse login without an SSO
payload. -/
theorem login_redirect_fields_exclusive_witness :
    ({ base := token_to_response cUser cToken, redirect := none,
        redirect_internal := some "https://forum.example.org/internal" } :
        LoginResponse).redirect = none ∨
    ({ base := token_to_response cUser cToken, redirect := none,
        redirect_internal := some "https://forum.example.org/internal" } :
        LoginResponse).redirect_internal = none :=
  (login_redirect_fields_exclusive [cUser] cOkEnv cJsonDiscourse "alice"
    (PyVal.str "pw")
    { base := token_to_response cUser cToken, redirect := none,
      redirect_internal := some "https://forum.example.org/internal" }
    rfl).1

end C2c
